import Mathlib

/-!
Verification of the AEP cataloging bridge (`src/catalog/python_bridge.py`).

The bridge is dynamically typed Python operating on JSON-like dictionaries,
so the embedding works over a `PyVal` type of Python/JSON values, with
dictionary indexing (`d[k]`, raising `KeyError`), `dict.get` with a default,
iteration, `len`, truthiness and string formatting modelled explicitly.
Failure (a raised Python exception) is `Except String`.

The stateful parts (`parse_aep` with its result cache, temporary output
file and external Go-parser process; `catalog_directory`) are modelled by
explicit state passing: the filesystem, path canonicalization and engine
behaviour are an environment record fixed for a process run, the cache is
an association list threaded through calls, and the observable effects of
one call (temporary-file creation/removal, engine invocation) are an event
list in the call's outcome.
-/

set_option maxHeartbeats 1000000

/-- A Python/JSON value as handled by the bridge.  Dictionaries are
association lists with string keys (the JSON level at which the bridge
reads and writes its data); lookup finds the first binding. -/
inductive PyVal where
  | str : String → PyVal
  | int : Int → PyVal
  | bool : Bool → PyVal
  | list : List PyVal → PyVal
  | dict : List (String × PyVal) → PyVal
deriving Repr

mutual

/-- Decidable equality on `PyVal` (written by hand: the nested lists defeat
the deriving handler). -/
def PyVal.decEq : (a b : PyVal) → Decidable (a = b)
  | .str a, .str b =>
    if h : a = b then .isTrue (by rw [h]) else .isFalse (by simp [h])
  | .int a, .int b =>
    if h : a = b then .isTrue (by rw [h]) else .isFalse (by simp [h])
  | .bool a, .bool b =>
    if h : a = b then .isTrue (by rw [h]) else .isFalse (by simp [h])
  | .list a, .list b =>
    match PyVal.decEqList a b with
    | .isTrue h => .isTrue (by rw [h])
    | .isFalse h => .isFalse (by simp [h])
  | .dict a, .dict b =>
    match PyVal.decEqDict a b with
    | .isTrue h => .isTrue (by rw [h])
    | .isFalse h => .isFalse (by simp [h])
  | .str _, .int _ => .isFalse (by simp)
  | .str _, .bool _ => .isFalse (by simp)
  | .str _, .list _ => .isFalse (by simp)
  | .str _, .dict _ => .isFalse (by simp)
  | .int _, .str _ => .isFalse (by simp)
  | .int _, .bool _ => .isFalse (by simp)
  | .int _, .list _ => .isFalse (by simp)
  | .int _, .dict _ => .isFalse (by simp)
  | .bool _, .str _ => .isFalse (by simp)
  | .bool _, .int _ => .isFalse (by simp)
  | .bool _, .list _ => .isFalse (by simp)
  | .bool _, .dict _ => .isFalse (by simp)
  | .list _, .str _ => .isFalse (by simp)
  | .list _, .int _ => .isFalse (by simp)
  | .list _, .bool _ => .isFalse (by simp)
  | .list _, .dict _ => .isFalse (by simp)
  | .dict _, .str _ => .isFalse (by simp)
  | .dict _, .int _ => .isFalse (by simp)
  | .dict _, .bool _ => .isFalse (by simp)
  | .dict _, .list _ => .isFalse (by simp)

def PyVal.decEqList : (a b : List PyVal) → Decidable (a = b)
  | [], [] => .isTrue rfl
  | x :: xs, y :: ys =>
    match PyVal.decEq x y, PyVal.decEqList xs ys with
    | .isTrue h1, .isTrue h2 => .isTrue (by rw [h1, h2])
    | .isFalse h1, _ => .isFalse (by simp [h1])
    | _, .isFalse h2 => .isFalse (by simp [h2])
  | [], _ :: _ => .isFalse (by simp)
  | _ :: _, [] => .isFalse (by simp)

def PyVal.decEqDict : (a b : List (String × PyVal)) → Decidable (a = b)
  | [], [] => .isTrue rfl
  | (k1, v1) :: xs, (k2, v2) :: ys =>
    match String.decEq k1 k2, PyVal.decEq v1 v2, PyVal.decEqDict xs ys with
    | .isTrue h0, .isTrue h1, .isTrue h2 => .isTrue (by rw [h0, h1, h2])
    | .isFalse h0, _, _ => .isFalse (by simp [h0])
    | _, .isFalse h1, _ => .isFalse (by simp [h1])
    | _, _, .isFalse h2 => .isFalse (by simp [h2])
  | [], _ :: _ => .isFalse (by simp)
  | _ :: _, [] => .isFalse (by simp)

end

instance : DecidableEq PyVal := PyVal.decEq

namespace PyVal

/-- Python truthiness: `""`, `0`, `False`, `[]` and `{}` are falsy. -/
def truthy : PyVal → Bool
  | .str s => s != ""
  | .int n => n != 0
  | .bool b => b
  | .list l => !l.isEmpty
  | .dict d => !d.isEmpty

/-- Dictionary indexing `d[k]`: raises `KeyError` when the key is absent and
`TypeError` when the value is not a dictionary. -/
def getItem (v : PyVal) (k : String) : Except String PyVal :=
  match v with
  | .dict d =>
    match d.lookup k with
    | some x => .ok x
    | none => .error ("KeyError: " ++ k)
  | _ => .error "TypeError: value is not subscriptable by a string key"

/-- `d.get(k, default)`: the default when the key is absent; raises
`AttributeError` when the receiver is not a dictionary. -/
def getD (v : PyVal) (k : String) (default : PyVal) : Except String PyVal :=
  match v with
  | .dict d =>
    match d.lookup k with
    | some x => .ok x
    | none => .ok default
  | _ => .error "AttributeError: value has no attribute get"

/-- `len(v)`: defined for lists, strings and dictionaries. -/
def pyLen (v : PyVal) : Except String Nat :=
  match v with
  | .list l => .ok l.length
  | .str s => .ok s.length
  | .dict d => .ok d.length
  | _ => .error "TypeError: object has no len"

/-- `for x in v`: iterating a list yields its elements, a string its
characters (as one-character strings), a dictionary its keys; numbers and
booleans are not iterable. -/
def toIter (v : PyVal) : Except String (List PyVal) :=
  match v with
  | .list l => .ok l
  | .str s => .ok (s.data.map (fun c => .str (String.mk [c])))
  | .dict d => .ok (d.map (fun kv => .str kv.1))
  | _ => .error "TypeError: object is not iterable"

/-- Numeric coercion used by `sum`: Python booleans are integers. -/
def toInt (v : PyVal) : Except String Int :=
  match v with
  | .int n => .ok n
  | .bool b => .ok (if b then 1 else 0)
  | _ => .error "TypeError: unsupported operand type for +"

end PyVal

/-- Python `repr`, as used for elements inside a container's `str`. -/
def pyRepr : PyVal → String
  | .str s => "\x27" ++ s ++ "\x27"
  | .int n => toString n
  | .bool b => if b then "True" else "False"
  | .list l => "[" ++ String.intercalate ", " (l.attach.map (fun x => pyRepr x.1)) ++ "]"
  | .dict d =>
    "\x7b" ++
      String.intercalate ", "
        (d.attach.map (fun kv => "\x27" ++ kv.1.1 ++ "\x27: " ++ pyRepr kv.1.2)) ++ "\x7d"
decreasing_by
  · have := List.sizeOf_lt_of_mem x.2
    simp at this ⊢
    omega
  · have h1 := List.sizeOf_lt_of_mem kv.2
    rcases kv with ⟨⟨k, v⟩, hmem⟩
    simp at h1 ⊢
    omega

/-- Python `str`, as applied by an f-string interpolation such as
`f"{c['width']}x{c['height']}"`. -/
def pyStr : PyVal → String
  | .str s => s
  | .int n => toString n
  | .bool b => if b then "True" else "False"
  | .list l => pyRepr (.list l)
  | .dict d => pyRepr (.dict d)

/-- Per-process Python runtime environment: `list(set(...))` over strings
enumerates the distinct elements in a hash-dependent order that is fixed for
one interpreter process.  `setOrder l` is that enumeration; the bundled
property says it is some ordering of the distinct elements of `l`
(a permutation of `l.dedup`), which every CPython run satisfies. -/
structure PyEnv where
  setOrder : List String → List String
  setOrder_perm : ∀ l : List String, List.Perm (setOrder l) l.dedup

/-- The element builder of the `text_layers` comprehension
(`convert_to_mobot_format`, "customizable_elements"): renames
`layer_name`/`source_text`/`comp_id` to `name`/`default_text`/`comp`. -/
def buildTextLayers : List PyVal → Except String (List PyVal)
  | [] => .ok []
  | t :: rest => do
    let n ← t.getItem "layer_name"
    let dt ← t.getItem "source_text"
    let cid ← t.getItem "comp_id"
    let tail ← buildTextLayers rest
    .ok (PyVal.dict [("name", n), ("default_text", dt), ("comp", cid)] :: tail)

/-- The `media_placeholders` comprehension: the `if m["is_placeholder"]`
filter clause runs first (Python truthiness); only then is the element
dictionary built, re-reading `name`/`type`/`is_placeholder`. -/
def buildMediaPlaceholders : List PyVal → Except String (List PyVal)
  | [] => .ok []
  | m :: rest => do
    let cond ← m.getItem "is_placeholder"
    if cond.truthy then
      let n ← m.getItem "name"
      let ty ← m.getItem "type"
      let ph ← m.getItem "is_placeholder"
      let tail ← buildMediaPlaceholders rest
      .ok (PyVal.dict [("name", n), ("type", ty), ("placeholder", ph)] :: tail)
    else
      buildMediaPlaceholders rest

/-- The `usage_scenarios` comprehension over `metadata["opportunities"]`. -/
def buildUsageScenarios : List PyVal → Except String (List PyVal)
  | [] => .ok []
  | o :: rest => do
    let ty ← o.getItem "type"
    let de ← o.getItem "description"
    let di ← o.getItem "difficulty"
    let im ← o.getItem "impact"
    let tail ← buildUsageScenarios rest
    .ok (PyVal.dict
      [("type", ty), ("description", de), ("difficulty", di), ("impact", im)] :: tail)

/-- `sum(c["layer_count"] for c in compositions)`. -/
def sumLayerCounts : List PyVal → Except String Int
  | [] => .ok 0
  | c :: rest => do
    let n ← (← c.getItem "layer_count").toInt
    let tail ← sumLayerCounts rest
    .ok (n + tail)

/-- `[e["name"] for e in metadata["effects"]]`. -/
def buildEffectsUsed : List PyVal → Except String (List PyVal)
  | [] => .ok []
  | e :: rest => do
    let n ← e.getItem "name"
    let tail ← buildEffectsUsed rest
    .ok (n :: tail)

/-- The `f"{c['width']}x{c['height']}"` strings of the resolution set
comprehension, in composition order (the order the generator feeds
`set(...)`). -/
def buildResolutionStrings : List PyVal → Except String (List String)
  | [] => .ok []
  | c :: rest => do
    let w ← c.getItem "width"
    let h ← c.getItem "height"
    let tail ← buildResolutionStrings rest
    .ok ((pyStr w ++ "x" ++ pyStr h) :: tail)

/-- `AEPCatalogBridge.convert_to_mobot_format`: maps raw Go-parser output to
the mobot catalog-entry dictionary.  Field accesses are the source's direct
`metadata[...]` indexings, evaluated in the order the Python dict literal
evaluates its values, so the first missing key raises that key's
`KeyError`. -/
def convert_to_mobot_format (env : PyEnv) (metadata : PyVal) : Except String PyVal := do
  let template_path ← metadata.getItem "file_path"
  let template_name ← metadata.getItem "file_name"
  let analyzed_at ← metadata.getItem "parsed_at"
  let compositionsVal ← metadata.getItem "compositions"
  let nComps ← compositionsVal.pyLen
  let comps ← compositionsVal.toIter
  let total_layers ← sumLayerCounts comps
  let caps ← metadata.getItem "capabilities"
  let cap_text ← caps.getItem "has_text_replacement"
  let cap_image ← caps.getItem "has_image_replacement"
  let cap_color ← caps.getItem "has_color_control"
  let cap_audio ← caps.getItem "has_audio_replacement"
  let cap_data ← caps.getItem "has_data_driven"
  let cap_expr ← caps.getItem "has_expressions"
  let cap_mod ← caps.getItem "is_modular"
  let categories ← metadata.getItem "categories"
  let tags ← metadata.getItem "tags"
  let textLayersVal ← metadata.getItem "text_layers"
  let text_layers ← buildTextLayers (← textLayersVal.toIter)
  let mediaVal ← metadata.getItem "media_assets"
  let media_placeholders ← buildMediaPlaceholders (← mediaVal.toIter)
  let oppsVal ← metadata.getItem "opportunities"
  let usage_scenarios ← buildUsageScenarios (← oppsVal.toIter)
  let bit_depth ← metadata.getItem "bit_depth"
  let expression_engine ← metadata.getItem "expression_engine"
  let effectsVal ← metadata.getItem "effects"
  let effects_used ← buildEffectsUsed (← effectsVal.toIter)
  let resStrings ← buildResolutionStrings comps
  let resolutions := env.setOrder resStrings
  .ok (PyVal.dict
    [ ("template_path", template_path),
      ("template_name", template_name),
      ("analyzed_at", analyzed_at),
      ("compositions", .int nComps),
      ("total_layers", .int total_layers),
      ("capabilities", .dict
        [ ("text_replacement", cap_text),
          ("image_replacement", cap_image),
          ("color_control", cap_color),
          ("audio_replacement", cap_audio),
          ("data_driven", cap_data),
          ("expressions", cap_expr),
          ("modular", cap_mod) ]),
      ("categories", categories),
      ("tags", tags),
      ("customizable_elements", .dict
        [ ("text_layers", .list text_layers),
          ("media_placeholders", .list media_placeholders) ]),
      ("usage_scenarios", .list usage_scenarios),
      ("technical_details", .dict
        [ ("bit_depth", bit_depth),
          ("expression_engine", expression_engine),
          ("effects_used", .list effects_used),
          ("resolutions", .list (resolutions.map PyVal.str)) ]) ])

/-- Inversion for a successful monadic bind in `Except`. -/
theorem except_bind_ok_inv {ε α β : Type} {x : Except ε α} {f : α → Except ε β} {b : β}
    (h : x >>= f = .ok b) : ∃ a, x = .ok a ∧ f a = .ok b := by
  cases x with
  | ok a => exact ⟨a, rfl, h⟩
  | error e =>
    simp only [bind, Except.bind] at h
    exact Except.noConfusion h

/-- A fully explicit `setOrder` instance: enumerate a set in first-insertion
order.  Used to fix a concrete interpreter environment in witnesses and
counterexamples. -/
def env0 : PyEnv := ⟨fun l => l.dedup, fun l => List.Perm.refl l.dedup⟩

/-- Shape inversion for `convert_to_mobot_format`: a successful conversion
pins down every intermediate dictionary access and the exact output
dictionary. -/
theorem convert_to_mobot_format_ok_inv {env : PyEnv} {m e : PyVal}
    (h : convert_to_mobot_format env m = .ok e) :
    ∃ tp tn aa cv caps cats tags tlv mv ov bd ee ev c1 c2 c3 c4 c5 c6 c7 nc comps tl tls mps oss effs resS,
      m.getItem "file_path" = .ok tp ∧
      m.getItem "file_name" = .ok tn ∧
      m.getItem "parsed_at" = .ok aa ∧
      m.getItem "compositions" = .ok cv ∧
      PyVal.pyLen cv = .ok nc ∧
      PyVal.toIter cv = .ok comps ∧
      sumLayerCounts comps = .ok tl ∧
      m.getItem "capabilities" = .ok caps ∧
      caps.getItem "has_text_replacement" = .ok c1 ∧
      caps.getItem "has_image_replacement" = .ok c2 ∧
      caps.getItem "has_color_control" = .ok c3 ∧
      caps.getItem "has_audio_replacement" = .ok c4 ∧
      caps.getItem "has_data_driven" = .ok c5 ∧
      caps.getItem "has_expressions" = .ok c6 ∧
      caps.getItem "is_modular" = .ok c7 ∧
      m.getItem "categories" = .ok cats ∧
      m.getItem "tags" = .ok tags ∧
      m.getItem "text_layers" = .ok tlv ∧
      m.getItem "media_assets" = .ok mv ∧
      m.getItem "opportunities" = .ok ov ∧
      m.getItem "bit_depth" = .ok bd ∧
      m.getItem "expression_engine" = .ok ee ∧
      m.getItem "effects" = .ok ev ∧
      (∃ tli, PyVal.toIter tlv = .ok tli ∧ buildTextLayers tli = .ok tls) ∧
      (∃ msi, PyVal.toIter mv = .ok msi ∧ buildMediaPlaceholders msi = .ok mps) ∧
      (∃ osi, PyVal.toIter ov = .ok osi ∧ buildUsageScenarios osi = .ok oss) ∧
      (∃ esi, PyVal.toIter ev = .ok esi ∧ buildEffectsUsed esi = .ok effs) ∧
      buildResolutionStrings comps = .ok resS ∧
      e = PyVal.dict
        [ ("template_path", tp),
          ("template_name", tn),
          ("analyzed_at", aa),
          ("compositions", .int nc),
          ("total_layers", .int tl),
          ("capabilities", .dict
            [ ("text_replacement", c1),
              ("image_replacement", c2),
              ("color_control", c3),
              ("audio_replacement", c4),
              ("data_driven", c5),
              ("expressions", c6),
              ("modular", c7) ]),
          ("categories", cats),
          ("tags", tags),
          ("customizable_elements", .dict
            [ ("text_layers", .list tls),
              ("media_placeholders", .list mps) ]),
          ("usage_scenarios", .list oss),
          ("technical_details", .dict
            [ ("bit_depth", bd),
              ("expression_engine", ee),
              ("effects_used", .list effs),
              ("resolutions", .list ((env.setOrder resS).map PyVal.str)) ]) ] := by
  unfold convert_to_mobot_format at h
  obtain ⟨tp, h1, h⟩ := except_bind_ok_inv h
  obtain ⟨tn, h2, h⟩ := except_bind_ok_inv h
  obtain ⟨aa, h3, h⟩ := except_bind_ok_inv h
  obtain ⟨cv, h4, h⟩ := except_bind_ok_inv h
  obtain ⟨nc, h5, h⟩ := except_bind_ok_inv h
  obtain ⟨comps, h6, h⟩ := except_bind_ok_inv h
  obtain ⟨tl, h7, h⟩ := except_bind_ok_inv h
  obtain ⟨caps, h8, h⟩ := except_bind_ok_inv h
  obtain ⟨c1, h9, h⟩ := except_bind_ok_inv h
  obtain ⟨c2, h10, h⟩ := except_bind_ok_inv h
  obtain ⟨c3, h11, h⟩ := except_bind_ok_inv h
  obtain ⟨c4, h12, h⟩ := except_bind_ok_inv h
  obtain ⟨c5, h13, h⟩ := except_bind_ok_inv h
  obtain ⟨c6, h14, h⟩ := except_bind_ok_inv h
  obtain ⟨c7, h15, h⟩ := except_bind_ok_inv h
  obtain ⟨cats, h16, h⟩ := except_bind_ok_inv h
  obtain ⟨tags, h17, h⟩ := except_bind_ok_inv h
  obtain ⟨tlv, h18, h⟩ := except_bind_ok_inv h
  obtain ⟨tli, h19, h⟩ := except_bind_ok_inv h
  obtain ⟨tls, h20, h⟩ := except_bind_ok_inv h
  obtain ⟨mv, h21, h⟩ := except_bind_ok_inv h
  obtain ⟨msi, h22, h⟩ := except_bind_ok_inv h
  obtain ⟨mps, h23, h⟩ := except_bind_ok_inv h
  obtain ⟨ov, h24, h⟩ := except_bind_ok_inv h
  obtain ⟨osi, h25, h⟩ := except_bind_ok_inv h
  obtain ⟨oss, h26, h⟩ := except_bind_ok_inv h
  obtain ⟨bd, h27, h⟩ := except_bind_ok_inv h
  obtain ⟨ee, h28, h⟩ := except_bind_ok_inv h
  obtain ⟨ev, h29, h⟩ := except_bind_ok_inv h
  obtain ⟨esi, h30, h⟩ := except_bind_ok_inv h
  obtain ⟨effs, h31, h⟩ := except_bind_ok_inv h
  obtain ⟨resS, h32, h⟩ := except_bind_ok_inv h
  injection h with h
  exact ⟨tp, tn, aa, cv, caps, cats, tags, tlv, mv, ov, bd, ee, ev,
    c1, c2, c3, c4, c5, c6, c7, nc, comps, tl, tls, mps, oss, effs, resS,
    h1, h2, h3, h4, h5, h6, h7, h8, h9, h10, h11, h12, h13, h14, h15, h16,
    h17, h18, h21, h24, h27, h28, h29,
    ⟨tli, h19, h20⟩, ⟨msi, h22, h23⟩, ⟨osi, h25, h26⟩, ⟨esi, h30, h31⟩,
    h32, h.symm⟩

/-- A fully populated raw-metadata value: every field the converter reads is
present and well-typed. -/
def rawFull : PyVal := PyVal.dict
  [ ("file_path", .str "/templates/promo.aep"),
    ("file_name", .str "promo.aep"),
    ("parsed_at", .str "2024-01-15T10:30:00"),
    ("compositions", .list
      [ PyVal.dict [("name", .str "Main"), ("width", .int 1920),
          ("height", .int 1080), ("layer_count", .int 12)],
        PyVal.dict [("name", .str "Intro"), ("width", .int 1920),
          ("height", .int 1080), ("layer_count", .int 5)] ]),
    ("capabilities", .dict
      [ ("has_text_replacement", .bool true),
        ("has_image_replacement", .bool false),
        ("has_color_control", .bool true),
        ("has_audio_replacement", .bool false),
        ("has_data_driven", .bool false),
        ("has_expressions", .bool true),
        ("is_modular", .bool false) ]),
    ("categories", .list [.str "promo"]),
    ("tags", .list [.str "hd"]),
    ("text_layers", .list
      [ PyVal.dict [("layer_name", .str "title"), ("source_text", .str "Hello"),
          ("comp_id", .int 1)] ]),
    ("media_assets", .list
      [ PyVal.dict [("name", .str "logo"), ("type", .str "image"),
          ("is_placeholder", .bool true)],
        PyVal.dict [("name", .str "bg"), ("type", .str "footage"),
          ("is_placeholder", .bool false)] ]),
    ("opportunities", .list
      [ PyVal.dict [("type", .str "social"), ("description", .str "Cutdown"),
          ("difficulty", .str "easy"), ("impact", .str "high")] ]),
    ("bit_depth", .int 16),
    ("expression_engine", .str "javascript-1.0"),
    ("effects", .list [PyVal.dict [("name", .str "Gaussian Blur")]]) ]

/-- The catalog entry the converter produces from `rawFull` under `env0`. -/
def rawFullEntry : PyVal :=
  ((convert_to_mobot_format env0 rawFull).toOption).getD (.dict [])

theorem convert_rawFull_ok :
    convert_to_mobot_format env0 rawFull = .ok rawFullEntry := by rfl

/-- The seven-key list of the canonical capability map. -/
def mobotCapKeys : List String :=
  ["text_replacement", "image_replacement", "color_control",
   "audio_replacement", "data_driven", "expressions", "modular"]

/-- The raw capability-flag keys the converter reads. -/
def rawCapKeys : List String :=
  ["has_text_replacement", "has_image_replacement", "has_color_control",
   "has_audio_replacement", "has_data_driven", "has_expressions", "is_modular"]

/-- Claim C1 (amended): every `CatalogEntry` accepted out of
`convert_to_mobot_format` carries a capability map with exactly the fixed
seven-key set, in the fixed order; and acceptance forces every one of the
seven raw capability flags to be present in the input — an input with an
absent flag is rejected with a `KeyError` rather than defaulting the flag to
false. -/
theorem convert_capability_map_exact_keys (env : PyEnv) (m e : PyVal)
    (h : convert_to_mobot_format env m = .ok e) :
    (∃ cd, e.getItem "capabilities" = .ok (.dict cd) ∧
      cd.map Prod.fst = mobotCapKeys) ∧
    (∃ rawCaps, m.getItem "capabilities" = .ok rawCaps ∧
      ∀ k ∈ rawCapKeys, ∃ v, rawCaps.getItem k = .ok v) := by
  obtain ⟨tp, tn, aa, cv, caps, cats, tags, tlv, mv, ov, bd, ee, ev,
    c1, c2, c3, c4, c5, c6, c7, nc, comps, tl, tls, mps, oss, effs, resS,
    h1, h2, h3, h4, h5, h6, h7, h8, h9, h10, h11, h12, h13, h14, h15, h16,
    h17, h18, h21, h24, h27, h28, h29, _, _, _, _, h32, he⟩ :=
    convert_to_mobot_format_ok_inv h
  subst he
  constructor
  · exact ⟨_, rfl, rfl⟩
  · refine ⟨caps, h8, ?_⟩
    intro k hk
    simp [rawCapKeys] at hk
    rcases hk with rfl | rfl | rfl | rfl | rfl | rfl | rfl
    · exact ⟨c1, h9⟩
    · exact ⟨c2, h10⟩
    · exact ⟨c3, h11⟩
    · exact ⟨c4, h12⟩
    · exact ⟨c5, h13⟩
    · exact ⟨c6, h14⟩
    · exact ⟨c7, h15⟩

/-- Witness for C1 at the concrete input `rawFull`. -/
theorem convert_capability_map_exact_keys_witness :
    (∃ cd, rawFullEntry.getItem "capabilities" = .ok (.dict cd) ∧
      cd.map Prod.fst = mobotCapKeys) ∧
    (∃ rawCaps, rawFull.getItem "capabilities" = .ok rawCaps ∧
      ∀ k ∈ rawCapKeys, ∃ v, rawCaps.getItem k = .ok v) :=
  convert_capability_map_exact_keys env0 rawFull rawFullEntry (by rfl)

/-- `rawFull` with the `is_modular` capability flag removed; every other
field the converter reads is intact. -/
def rawNoModular : PyVal := PyVal.dict
  [ ("file_path", .str "/templates/promo.aep"),
    ("file_name", .str "promo.aep"),
    ("parsed_at", .str "2024-01-15T10:30:00"),
    ("compositions", .list
      [ PyVal.dict [("name", .str "Main"), ("width", .int 1920),
          ("height", .int 1080), ("layer_count", .int 12)] ]),
    ("capabilities", .dict
      [ ("has_text_replacement", .bool true),
        ("has_image_replacement", .bool false),
        ("has_color_control", .bool true),
        ("has_audio_replacement", .bool false),
        ("has_data_driven", .bool false),
        ("has_expressions", .bool true) ]),
    ("categories", .list [.str "promo"]),
    ("tags", .list [.str "hd"]),
    ("text_layers", .list []),
    ("media_assets", .list []),
    ("opportunities", .list []),
    ("bit_depth", .int 16),
    ("expression_engine", .str "javascript-1.0"),
    ("effects", .list []) ]

/-- Counterexample to C1 as stated: an input whose capability set lacks only
the `is_modular` flag is not converted with `modular` defaulted to false —
the converter raises `KeyError: is_modular`. -/
theorem convert_missing_flag_rejected :
    convert_to_mobot_format env0 rawNoModular = .error "KeyError: is_modular" := by rfl

/-- The thirteen top-level raw-metadata keys the converter indexes. -/
def convertAccessedKeys : List String :=
  ["file_path", "file_name", "parsed_at", "compositions", "capabilities",
   "categories", "tags", "text_layers", "media_assets", "opportunities",
   "bit_depth", "expression_engine", "effects"]

/-- Claim C2 (amended): `convert_to_mobot_format` accepts an input only when
every top-level field it indexes is present — not just the four fields the
spec calls required.  Equivalently, a raw input missing any accessed field,
optional ones included, is rejected with a `KeyError` instead of degrading
that field to an empty/false default. -/
theorem convert_ok_requires_all_accessed_fields (env : PyEnv) (m e : PyVal)
    (h : convert_to_mobot_format env m = .ok e) :
    ∀ k ∈ convertAccessedKeys, ∃ v, m.getItem k = .ok v := by
  obtain ⟨tp, tn, aa, cv, caps, cats, tags, tlv, mv, ov, bd, ee, ev,
    c1, c2, c3, c4, c5, c6, c7, nc, comps, tl, tls, mps, oss, effs, resS,
    h1, h2, h3, h4, h5, h6, h7, h8, h9, h10, h11, h12, h13, h14, h15, h16,
    h17, h18, h21, h24, h27, h28, h29, _, _, _, _, h32, he⟩ :=
    convert_to_mobot_format_ok_inv h
  intro k hk
  simp [convertAccessedKeys] at hk
  rcases hk with rfl | rfl | rfl | rfl | rfl | rfl | rfl | rfl | rfl | rfl | rfl | rfl | rfl
  · exact ⟨tp, h1⟩
  · exact ⟨tn, h2⟩
  · exact ⟨aa, h3⟩
  · exact ⟨cv, h4⟩
  · exact ⟨caps, h8⟩
  · exact ⟨cats, h16⟩
  · exact ⟨tags, h17⟩
  · exact ⟨tlv, h18⟩
  · exact ⟨mv, h21⟩
  · exact ⟨ov, h24⟩
  · exact ⟨bd, h27⟩
  · exact ⟨ee, h28⟩
  · exact ⟨ev, h29⟩

/-- Witness for C2 at the concrete input `rawFull` and the key
"opportunities". -/
theorem convert_ok_requires_all_accessed_fields_witness :
    ∃ v, rawFull.getItem "opportunities" = .ok v :=
  convert_ok_requires_all_accessed_fields env0 rawFull rawFullEntry (by rfl)
    "opportunities" (by decide)

/-- `rawFull` with only the optional `opportunities` list removed: all four
fields the spec calls required (file path, file name, compositions,
capability flags) are present and well-typed. -/
def rawNoOpportunities : PyVal := PyVal.dict
  [ ("file_path", .str "/templates/promo.aep"),
    ("file_name", .str "promo.aep"),
    ("parsed_at", .str "2024-01-15T10:30:00"),
    ("compositions", .list
      [ PyVal.dict [("name", .str "Main"), ("width", .int 1920),
          ("height", .int 1080), ("layer_count", .int 12)] ]),
    ("capabilities", .dict
      [ ("has_text_replacement", .bool true),
        ("has_image_replacement", .bool false),
        ("has_color_control", .bool true),
        ("has_audio_replacement", .bool false),
        ("has_data_driven", .bool false),
        ("has_expressions", .bool true),
        ("is_modular", .bool false) ]),
    ("categories", .list [.str "promo"]),
    ("tags", .list [.str "hd"]),
    ("text_layers", .list []),
    ("media_assets", .list []),
    ("bit_depth", .int 16),
    ("expression_engine", .str "javascript-1.0"),
    ("effects", .list []) ]

/-- Counterexample to C2 as stated: an input missing only the optional
`opportunities` field is not converted with an empty usage-scenario list —
the converter raises `KeyError: opportunities`. -/
theorem convert_missing_optional_field_rejected :
    convert_to_mobot_format env0 rawNoOpportunities
      = .error "KeyError: opportunities" := by rfl

/-- Every element emitted by the media-placeholder comprehension carries a
truthy `placeholder` value: the `if m["is_placeholder"]` clause filters
before the element dictionary is built, and the stored value is that same
flag. -/
theorem buildMediaPlaceholders_truthy :
    ∀ ms l : List PyVal, buildMediaPlaceholders ms = .ok l →
      ∀ x ∈ l, ∃ v, x.getItem "placeholder" = .ok v ∧ v.truthy = true := by
  intro ms
  induction ms with
  | nil =>
    intro l h x hx
    unfold buildMediaPlaceholders at h
    injection h with h
    subst h
    exact absurd hx (List.not_mem_nil x)
  | cons m rest ih =>
    intro l h x hx
    unfold buildMediaPlaceholders at h
    obtain ⟨cond, hc, h⟩ := except_bind_ok_inv h
    split at h
    case isTrue htr =>
      obtain ⟨n, hn, h⟩ := except_bind_ok_inv h
      obtain ⟨ty, hty, h⟩ := except_bind_ok_inv h
      obtain ⟨ph, hph, h⟩ := except_bind_ok_inv h
      obtain ⟨tail, htail, h⟩ := except_bind_ok_inv h
      injection h with h
      subst h
      rcases List.mem_cons.mp hx with rfl | hx'
      · refine ⟨ph, rfl, ?_⟩
        rw [hc] at hph
        injection hph with hph
        rw [← hph]
        exact htr
      · exact ih tail htail x hx'
    case isFalse =>
      exact ih l h x hx

/-- Claim C7: for every raw input accepted by `convert_to_mobot_format`, the
`media_placeholders` list of the resulting entry contains only elements
whose `placeholder` flag (copied from the asset's `is_placeholder`) is
truthy — no non-placeholder media asset appears in it. -/
theorem convert_media_placeholders_only_placeholders (env : PyEnv) (m e : PyVal)
    (h : convert_to_mobot_format env m = .ok e) :
    ∃ ce mps, e.getItem "customizable_elements" = .ok ce ∧
      ce.getItem "media_placeholders" = .ok (.list mps) ∧
      ∀ x ∈ mps, ∃ v, x.getItem "placeholder" = .ok v ∧ v.truthy = true := by
  obtain ⟨tp, tn, aa, cv, caps, cats, tags, tlv, mv, ov, bd, ee, ev,
    c1, c2, c3, c4, c5, c6, c7, nc, comps, tl, tls, mps, oss, effs, resS,
    h1, h2, h3, h4, h5, h6, h7, h8, h9, h10, h11, h12, h13, h14, h15, h16,
    h17, h18, h21, h24, h27, h28, h29, _, ⟨msi, hmsi, hmps⟩, _, _, h32, he⟩ :=
    convert_to_mobot_format_ok_inv h
  subst he
  exact ⟨_, mps, rfl, rfl, buildMediaPlaceholders_truthy msi mps hmps⟩

/-- Witness for C7 at the concrete input `rawFull` (whose media assets are
one placeholder and one non-placeholder). -/
theorem convert_media_placeholders_only_placeholders_witness :
    ∃ ce mps, rawFullEntry.getItem "customizable_elements" = .ok ce ∧
      ce.getItem "media_placeholders" = .ok (.list mps) ∧
      ∀ x ∈ mps, ∃ v, x.getItem "placeholder" = .ok v ∧ v.truthy = true :=
  convert_media_placeholders_only_placeholders env0 rawFull rawFullEntry (by rfl)

theorem pyval_str_injective : Function.Injective PyVal.str := by
  intro a b h
  injection h

/-- Claim C8: within one interpreter process (one `PyEnv`, which fixes the
hash-dependent set-enumeration order), `convert_to_mobot_format` is
deterministic: two evaluations on the same input yield the same catalog
entry, and the resolution-string list of that entry is a fixed,
duplicate-free enumeration of the composition resolution strings. -/
theorem convert_deterministic (env : PyEnv) (m e1 e2 : PyVal)
    (h1 : convert_to_mobot_format env m = .ok e1)
    (h2 : convert_to_mobot_format env m = .ok e2) :
    e1 = e2 ∧
    ∃ td, ∃ rl : List String, e1.getItem "technical_details" = .ok td ∧
      td.getItem "resolutions" = .ok (.list (rl.map PyVal.str)) ∧
      rl.Nodup := by
  have he : e1 = e2 := by
    rw [h1] at h2
    injection h2
  refine ⟨he, ?_⟩
  obtain ⟨tp, tn, aa, cv, caps, cats, tags, tlv, mv, ov, bd, ee, ev,
    c1, c2, c3, c4, c5, c6, c7, nc, comps, tl, tls, mps, oss, effs, resS,
    g1, g2, g3, g4, g5, g6, g7, g8, g9, g10, g11, g12, g13, g14, g15, g16,
    g17, g18, g21, g24, g27, g28, g29, _, _, _, _, g32, hE⟩ :=
    convert_to_mobot_format_ok_inv h1
  subst hE
  refine ⟨_, env.setOrder resS, rfl, rfl, ?_⟩
  exact (env.setOrder_perm resS).nodup_iff.mpr (List.nodup_dedup resS)

/-- Witness for C8 at the concrete input `rawFull`. -/
theorem convert_deterministic_witness :
    rawFullEntry = rawFullEntry ∧
    ∃ td, ∃ rl : List String, rawFullEntry.getItem "technical_details" = .ok td ∧
      td.getItem "resolutions" = .ok (.list (rl.map PyVal.str)) ∧
      rl.Nodup :=
  convert_deterministic env0 rawFull rawFullEntry rawFullEntry (by rfl) (by rfl)

/-- Per-process bridge environment: path canonicalization
(`Path(p).resolve()`), file existence, the external Go-parser invocation
(`.error` is the captured stderr of a non-zero exit, `.ok` the text the
engine wrote to the temporary output file), and `json.load` on that text.
All are fixed for one run, modelling an unchanged filesystem/engine. -/
structure BridgeEnv where
  resolve : String → String
  fileExists : String → Bool
  engine : String → Except String String
  parseJson : String → Option PyVal

/-- The exceptions `parse_aep` can raise: `FileNotFoundError`, the
`RuntimeError` re-raised from a `CalledProcessError` (carrying stderr), and
the `json.load` decode failure. -/
inductive PErr where
  | fileNotFound : String → PErr
  | goParserFailed : String → PErr
  | jsonError : PErr
deriving DecidableEq, Repr

/-- Observable resource events of one `parse_aep` call: creation of the
temporary output file, the engine process invocation, and the `finally`
block's removal of the temporary file. -/
inductive Ev where
  | createTemp : Ev
  | invokeEngine : Ev
  | removeTemp : Ev
deriving DecidableEq, Repr

/-- Result of one `parse_aep` call: the returned value or raised exception,
the cache state after the call, and the resource events in order. -/
structure ParseOutcome where
  result : Except PErr PyVal
  cache : List (String × PyVal)
  events : List Ev

/-- `AEPCatalogBridge.parse_aep`: resolve the path, raise if the file does
not exist, serve from the cache on a hit (no temporary file, no process),
otherwise create the temporary output file, run the Go parser, `json.load`
its output, store it in the cache only after a fully successful parse, and
remove the temporary file in the `finally` block on every exit path that
created it. -/
def parse_aep (env : BridgeEnv) (cache : List (String × PyVal))
    (aep_path : String) (use_cache : Bool := true) : ParseOutcome :=
  let key := env.resolve aep_path
  if env.fileExists key = false then
    ⟨.error (.fileNotFound key), cache, []⟩
  else
    match (if use_cache then cache.lookup key else none) with
    | some v => ⟨.ok v, cache, []⟩
    | none =>
      match env.engine key with
      | .error stderr =>
        ⟨.error (.goParserFailed stderr), cache,
          [.createTemp, .invokeEngine, .removeTemp]⟩
      | .ok out =>
        match env.parseJson out with
        | none =>
          ⟨.error .jsonError, cache,
            [.createTemp, .invokeEngine, .removeTemp]⟩
        | some md =>
          ⟨.ok md, (if use_cache then (key, md) :: cache else cache),
            [.createTemp, .invokeEngine, .removeTemp]⟩

/-- Claim C9: `parse_aep` removes its temporary engine-output file on every
exit path.  The event trace of any call is either empty (no temporary file
was ever created: missing input file, or cache hit) or the full
create/invoke/remove sequence, so temporary-file creations and removals
always balance and no invocation leaks the file. -/
theorem parse_aep_temp_file_never_leaks (env : BridgeEnv)
    (cache : List (String × PyVal)) (p : String) (uc : Bool) :
    (parse_aep env cache p uc).events.count Ev.createTemp
      = (parse_aep env cache p uc).events.count Ev.removeTemp ∧
    ((parse_aep env cache p uc).events = [] ∨
      (parse_aep env cache p uc).events
        = [Ev.createTemp, Ev.invokeEngine, Ev.removeTemp]) := by
  simp only [parse_aep]
  repeat' split
  all_goals simp

theorem parse_aep_not_found (env : BridgeEnv) (cache : List (String × PyVal))
    (p : String) (uc : Bool) (h : env.fileExists (env.resolve p) = false) :
    parse_aep env cache p uc
      = ⟨.error (.fileNotFound (env.resolve p)), cache, []⟩ := by
  simp [parse_aep, h]

theorem parse_aep_hit (env : BridgeEnv) (cache : List (String × PyVal))
    (p : String) (uc : Bool) (v : PyVal)
    (h1 : env.fileExists (env.resolve p) = true)
    (h2 : (if uc then List.lookup (env.resolve p) cache else none) = some v) :
    parse_aep env cache p uc = ⟨.ok v, cache, []⟩ := by
  simp [parse_aep, h1, h2]

theorem parse_aep_engine_error (env : BridgeEnv) (cache : List (String × PyVal))
    (p : String) (uc : Bool) (stderr : String)
    (h1 : env.fileExists (env.resolve p) = true)
    (h2 : (if uc then List.lookup (env.resolve p) cache else none) = none)
    (h3 : env.engine (env.resolve p) = .error stderr) :
    parse_aep env cache p uc
      = ⟨.error (.goParserFailed stderr), cache,
          [.createTemp, .invokeEngine, .removeTemp]⟩ := by
  simp [parse_aep, h1, h2, h3]

theorem parse_aep_json_error (env : BridgeEnv) (cache : List (String × PyVal))
    (p : String) (uc : Bool) (out : String)
    (h1 : env.fileExists (env.resolve p) = true)
    (h2 : (if uc then List.lookup (env.resolve p) cache else none) = none)
    (h3 : env.engine (env.resolve p) = .ok out)
    (h4 : env.parseJson out = none) :
    parse_aep env cache p uc
      = ⟨.error .jsonError, cache,
          [.createTemp, .invokeEngine, .removeTemp]⟩ := by
  simp [parse_aep, h1, h2, h3, h4]

theorem parse_aep_success (env : BridgeEnv) (cache : List (String × PyVal))
    (p : String) (uc : Bool) (out : String) (md : PyVal)
    (h1 : env.fileExists (env.resolve p) = true)
    (h2 : (if uc then List.lookup (env.resolve p) cache else none) = none)
    (h3 : env.engine (env.resolve p) = .ok out)
    (h4 : env.parseJson out = some md) :
    parse_aep env cache p uc
      = ⟨.ok md, (if uc then (env.resolve p, md) :: cache else cache),
          [.createTemp, .invokeEngine, .removeTemp]⟩ := by
  simp [parse_aep, h1, h2, h3, h4]

/-- Claim C10: `parse_aep` is atomic with respect to the cache on error —
whenever it raises (missing input file, engine process failure, or
unparseable engine output) the cache is exactly the cache it was called
with, and a subsequent default (caching) call on the same path re-attempts a
fresh engine invocation rather than serving any cached failure (except when
the error was a missing input file, in which case the subsequent call
re-raises before reaching the engine). -/
theorem parse_aep_error_leaves_cache_unchanged (env : BridgeEnv)
    (cache : List (String × PyVal)) (p : String) (uc : Bool) (e : PErr)
    (h : (parse_aep env cache p uc).result = .error e) :
    (parse_aep env cache p uc).cache = cache ∧
    (uc = true → (∀ q, e ≠ PErr.fileNotFound q) →
      Ev.invokeEngine ∈ (parse_aep env ((parse_aep env cache p uc).cache) p true).events) := by
  by_cases hex : env.fileExists (env.resolve p) = false
  · rw [parse_aep_not_found env cache p uc hex] at h ⊢
    simp only [Except.error.injEq] at h
    refine ⟨rfl, ?_⟩
    intro _ hne
    exact absurd h.symm (hne (env.resolve p))
  · have hex1 : env.fileExists (env.resolve p) = true := by
      cases hfe : env.fileExists (env.resolve p)
      · exact absurd hfe hex
      · rfl
    cases hcl : (if uc then List.lookup (env.resolve p) cache else none) with
    | some v =>
      rw [parse_aep_hit env cache p uc v hex1 hcl] at h
      exact absurd h (by simp)
    | none =>
      cases heng : env.engine (env.resolve p) with
      | error stderr =>
        rw [parse_aep_engine_error env cache p uc stderr hex1 hcl heng] at h ⊢
        refine ⟨rfl, ?_⟩
        intro huc _
        subst huc
        rw [show (⟨.error (.goParserFailed stderr), cache,
              [Ev.createTemp, Ev.invokeEngine, Ev.removeTemp]⟩ : ParseOutcome).cache
            = cache from rfl]
        rw [parse_aep_engine_error env cache p true stderr hex1 hcl heng]
        simp
      | ok out =>
        cases hj : env.parseJson out with
        | none =>
          rw [parse_aep_json_error env cache p uc out hex1 hcl heng hj] at h ⊢
          refine ⟨rfl, ?_⟩
          intro huc _
          subst huc
          rw [show (⟨.error .jsonError, cache,
                [Ev.createTemp, Ev.invokeEngine, Ev.removeTemp]⟩ : ParseOutcome).cache
              = cache from rfl]
          rw [parse_aep_json_error env cache p true out hex1 hcl heng hj]
          simp
        | some md =>
          rw [parse_aep_success env cache p uc out md hex1 hcl heng hj] at h
          exact absurd h (by simp)

/-- A concrete environment whose engine always fails with stderr "boom". -/
def envEngineFails : BridgeEnv :=
  ⟨fun s => s, fun _ => true, fun _ => .error "boom", fun _ => none⟩

/-- Witness for C10: a failing engine run on an existing file leaves the
cache empty and the follow-up call invokes the engine again. -/
theorem parse_aep_error_leaves_cache_unchanged_witness :
    (parse_aep envEngineFails [] "x.aep" true).cache = [] ∧
    Ev.invokeEngine ∈
      (parse_aep envEngineFails ((parse_aep envEngineFails [] "x.aep" true).cache)
        "x.aep" true).events :=
  ⟨(parse_aep_error_leaves_cache_unchanged envEngineFails [] "x.aep" true
      (.goParserFailed "boom") (by rfl)).1,
   (parse_aep_error_leaves_cache_unchanged envEngineFails [] "x.aep" true
      (.goParserFailed "boom") (by rfl)).2 rfl
      (fun q hq => PErr.noConfusion hq)⟩

/-- Claim C6: with caching enabled and no underlying change (one fixed
environment), a second `parse_aep` call after a successful first call
returns the identical result and performs no engine process invocation; the
cache key is the canonicalized absolute path, so any spelling that resolves
to the same path hits the same cache entry. -/
theorem parse_aep_cache_idempotent (env : BridgeEnv)
    (cache : List (String × PyVal)) (p1 p2 : String) (md : PyVal)
    (hpath : env.resolve p1 = env.resolve p2)
    (h : (parse_aep env cache p1 true).result = .ok md) :
    (parse_aep env ((parse_aep env cache p1 true).cache) p2 true).result = .ok md ∧
    Ev.invokeEngine ∉ (parse_aep env ((parse_aep env cache p1 true).cache) p2 true).events := by
  by_cases hex : env.fileExists (env.resolve p1) = false
  · rw [parse_aep_not_found env cache p1 true hex] at h
    exact absurd h (by simp)
  · have hex1 : env.fileExists (env.resolve p1) = true := by
      cases hfe : env.fileExists (env.resolve p1)
      · exact absurd hfe hex
      · rfl
    have hex2 : env.fileExists (env.resolve p2) = true := hpath ▸ hex1
    cases hcl : List.lookup (env.resolve p1) cache with
    | some v =>
      rw [parse_aep_hit env cache p1 true v hex1 (by simpa using hcl)] at h ⊢
      simp only [Except.ok.injEq] at h
      subst h
      have hcl2 : List.lookup (env.resolve p2) cache = some v := hpath ▸ hcl
      rw [show (⟨.ok v, cache, []⟩ : ParseOutcome).cache = cache from rfl]
      rw [parse_aep_hit env cache p2 true v hex2 (by simpa using hcl2)]
      simp
    | none =>
      cases heng : env.engine (env.resolve p1) with
      | error stderr =>
        rw [parse_aep_engine_error env cache p1 true stderr hex1
          (by simpa using hcl) heng] at h
        exact absurd h (by simp)
      | ok out =>
        cases hj : env.parseJson out with
        | none =>
          rw [parse_aep_json_error env cache p1 true out hex1
            (by simpa using hcl) heng hj] at h
          exact absurd h (by simp)
        | some md' =>
          rw [parse_aep_success env cache p1 true out md' hex1
            (by simpa using hcl) heng hj] at h ⊢
          simp only [Except.ok.injEq] at h
          subst h
          have hcl2 : List.lookup (env.resolve p2)
              ((env.resolve p1, md') :: cache) = some md' := by
            rw [← hpath]
            simp [List.lookup]
          rw [show (⟨.ok md', (if true then (env.resolve p1, md') :: cache else cache),
                [Ev.createTemp, Ev.invokeEngine, Ev.removeTemp]⟩ : ParseOutcome).cache
              = (env.resolve p1, md') :: cache from rfl]
          rw [parse_aep_hit env ((env.resolve p1, md') :: cache) p2 true md' hex2
            (by simpa using hcl2)]
          simp

/-- A concrete environment in which "./a.aep" and "a.aep" both canonicalize
to "/abs/a.aep", which exists; the engine succeeds with parseable output. -/
def envTwoSpellings : BridgeEnv :=
  ⟨fun s => if s = "./a.aep" || s = "a.aep" then "/abs/a.aep" else s,
   fun k => k == "/abs/a.aep",
   fun _ => .ok "metadata-json",
   fun _ => some (.dict [("file_name", .str "a.aep")])⟩

/-- Witness for C6: after parsing "./a.aep", the differently spelled
"a.aep" is served from the same cache entry with no engine invocation. -/
theorem parse_aep_cache_idempotent_witness :
    (parse_aep envTwoSpellings
        ((parse_aep envTwoSpellings [] "./a.aep" true).cache) "a.aep" true).result
      = .ok (.dict [("file_name", .str "a.aep")]) ∧
    Ev.invokeEngine ∉
      (parse_aep envTwoSpellings
        ((parse_aep envTwoSpellings [] "./a.aep" true).cache) "a.aep" true).events :=
  parse_aep_cache_idempotent envTwoSpellings [] "./a.aep" "a.aep"
    (.dict [("file_name", .str "a.aep")]) (by rfl) (by rfl)

/-- The message text of the per-file diagnostic line
(`print(f"Error parsing {aep_file}: {e}")`). -/
def perrMessage : PErr → String
  | .fileNotFound p => "AEP file not found: " ++ p
  | .goParserFailed stderr => "Go parser failed: " ++ stderr
  | .jsonError => "JSON decode error"

/-- Result of a `catalog_directory` run: the returned list of successfully
parsed raw-metadata values, the per-file error diagnostics printed along the
way (path and message, in print order), and the final cache state. -/
structure CatalogOutcome where
  results : List PyVal
  errors : List (String × String)
  cache : List (String × PyVal)

/-- `AEPCatalogBridge.catalog_directory` over the enumerated matching files:
parse each file with the shared cache, append a success to the results,
record (print) a per-file failure as a diagnostic and continue with the next
file — the batch never aborts on a single bad input. -/
def catalog_directory (env : BridgeEnv) (cache : List (String × PyVal)) :
    List String → CatalogOutcome
  | [] => ⟨[], [], cache⟩
  | f :: rest =>
    match (parse_aep env cache f true).result with
    | .ok md =>
      let tail := catalog_directory env (parse_aep env cache f true).cache rest
      ⟨md :: tail.results, tail.errors, tail.cache⟩
    | .error e =>
      let tail := catalog_directory env (parse_aep env cache f true).cache rest
      ⟨tail.results,
        (f, "Error parsing " ++ f ++ ": " ++ perrMessage e) :: tail.errors,
        tail.cache⟩

/-- Claim C4: `catalog_directory` processes every enumerated file — the
successful results and recorded per-file errors partition the N inputs, so
with exactly 1 recorded error it returns exactly N−1 successful results; a
per-file failure never aborts the batch or costs any other file its
result. -/
theorem catalog_directory_partial_failure_isolation (env : BridgeEnv)
    (cache : List (String × PyVal)) (files : List String) :
    (catalog_directory env cache files).results.length
        + (catalog_directory env cache files).errors.length = files.length ∧
    ((catalog_directory env cache files).errors.length = 1 →
      (catalog_directory env cache files).results.length = files.length - 1) := by
  have key : ∀ fs : List String, ∀ c : List (String × PyVal),
      (catalog_directory env c fs).results.length
        + (catalog_directory env c fs).errors.length = fs.length := by
    intro fs
    induction fs with
    | nil => intro c; rfl
    | cons f rest ih =>
      intro c
      unfold catalog_directory
      split
      · have := ih ((parse_aep env c f true).cache)
        simp only [List.length_cons]
        omega
      · have := ih ((parse_aep env c f true).cache)
        simp only [List.length_cons]
        omega
  refine ⟨key files cache, ?_⟩
  intro h1
  have := key files cache
  omega

/-- A concrete environment in which the engine fails exactly on the file
"b.aep" and succeeds elsewhere. -/
def envOneBadFile : BridgeEnv :=
  ⟨fun s => s,
   fun _ => true,
   fun k => if k = "b.aep" then .error "corrupt" else .ok "good",
   fun s => if s = "good" then some (.dict []) else none⟩

/-- Witness for C4: of the three enumerated files exactly one (b.aep) fails;
the batch returns 2 = 3−1 successful results and 1 recorded error. -/
theorem catalog_directory_partial_failure_isolation_witness :
    (catalog_directory envOneBadFile [] ["a.aep", "b.aep", "c.aep"]).results.length
        + (catalog_directory envOneBadFile [] ["a.aep", "b.aep", "c.aep"]).errors.length
        = 3 ∧
    (catalog_directory envOneBadFile [] ["a.aep", "b.aep", "c.aep"]).results.length
        = 3 - 1 :=
  ⟨(catalog_directory_partial_failure_isolation envOneBadFile []
      ["a.aep", "b.aep", "c.aep"]).1,
   (catalog_directory_partial_failure_isolation envOneBadFile []
      ["a.aep", "b.aep", "c.aep"]).2 (by rfl)⟩

/-- One `categories[cat] = categories.get(cat, 0) + 1` step on the counting
dictionary: bump an existing key in place, else append a new binding (Python
dict insertion order). -/
def bumpCount (m : List (PyVal × Int)) (k : PyVal) : List (PyVal × Int) :=
  match m with
  | [] => [(k, 1)]
  | (k', n) :: rest =>
    if k' = k then (k', n + 1) :: rest else (k', n) :: bumpCount rest k

/-- One template's pass of the aggregation loop:
`for cat in template.get(key, []): ...` — every raw occurrence bumps the
count. -/
def aggregateStep (key : String) (m : List (PyVal × Int)) (t : PyVal) :
    Except String (List (PyVal × Int)) := do
  let v ← t.getD key (.list [])
  let items ← v.toIter
  .ok (items.foldl bumpCount m)

/-- `AEPCatalogBridge._aggregate_categories`. -/
def aggregate_categories (catalog_data : List PyVal) :
    Except String (List (PyVal × Int)) :=
  catalog_data.foldlM (aggregateStep "categories") []

/-- `AEPCatalogBridge._aggregate_tags`. -/
def aggregate_tags (catalog_data : List PyVal) :
    Except String (List (PyVal × Int)) :=
  catalog_data.foldlM (aggregateStep "tags") []

/-- Count lookup in the aggregation dictionary (0 when absent, as
`d.get(cat, 0)` would read it). -/
def lookupCount : List (PyVal × Int) → PyVal → Int
  | [], _ => 0
  | (k, n) :: rest, v => if k = v then n else lookupCount rest v

/-- Number of raw occurrences of `v` in a list, as an integer. -/
def occurrences : List PyVal → PyVal → Int
  | [], _ => 0
  | x :: rest, v => (if x = v then 1 else 0) + occurrences rest v

/-- The per-entry value lists an aggregation run iterates: for each entry,
`entry.get(key, [])` iterated.  Succeeds exactly when the aggregation's own
accesses succeed. -/
def extractLists (key : String) : List PyVal → Except String (List (List PyVal))
  | [] => .ok []
  | t :: rest => do
    let v ← t.getD key (.list [])
    let items ← v.toIter
    let tail ← extractLists key rest
    .ok (items :: tail)

/-- Stated from the spec sentence under examination (claim C3): the number
of entries whose value list contains `v` at least once. -/
def specEntriesListing (ls : List (List PyVal)) (v : PyVal) : Nat :=
  (ls.filter (fun l => decide (v ∈ l))).length

theorem lookupCount_bumpCount (m : List (PyVal × Int)) (k v : PyVal) :
    lookupCount (bumpCount m k) v
      = lookupCount m v + (if k = v then 1 else 0) := by
  induction m with
  | nil =>
    by_cases h : k = v <;> simp [bumpCount, lookupCount, h]
  | cons kv rest ih =>
    obtain ⟨k', n⟩ := kv
    by_cases h1 : k' = k
    · subst h1
      by_cases h2 : k' = v <;> simp [bumpCount, lookupCount, h2]
    · by_cases h2 : k' = v
      · subst h2
        have hkv : ¬ k = k' := fun h => h1 h.symm
        simp [bumpCount, lookupCount, h1, hkv]
      · simp [bumpCount, lookupCount, h1, h2, ih]

theorem lookupCount_foldl_bumpCount (items : List PyVal) :
    ∀ m : List (PyVal × Int), ∀ v : PyVal,
      lookupCount (items.foldl bumpCount m) v
        = lookupCount m v + occurrences items v := by
  induction items with
  | nil => intro m v; simp [occurrences]
  | cons x rest ih =>
    intro m v
    simp only [List.foldl_cons, occurrences]
    rw [ih (bumpCount m x) v, lookupCount_bumpCount]
    omega

theorem aggregate_foldlM_counts (key : String) (ts : List PyVal) :
    ∀ (m0 : List (PyVal × Int)) (ls : List (List PyVal)),
      extractLists key ts = .ok ls →
      ∃ m, ts.foldlM (aggregateStep key) m0 = .ok m ∧
        ∀ v, lookupCount m v
          = lookupCount m0 v + (ls.map (occurrences · v)).sum := by
  induction ts with
  | nil =>
    intro m0 ls h
    injection h with h
    subst h
    exact ⟨m0, rfl, fun v => by simp⟩
  | cons t rest ih =>
    intro m0 ls h
    unfold extractLists at h
    obtain ⟨v0, hv0, h⟩ := except_bind_ok_inv h
    obtain ⟨items, hitems, h⟩ := except_bind_ok_inv h
    obtain ⟨tail, htail, h⟩ := except_bind_ok_inv h
    injection h with h
    subst h
    obtain ⟨m, hm, hcount⟩ := ih (items.foldl bumpCount m0) tail htail
    refine ⟨m, ?_, ?_⟩
    · rw [List.foldlM_cons]
      have hstep : aggregateStep key m0 t = .ok (items.foldl bumpCount m0) := by
        unfold aggregateStep
        rw [hv0]
        simp only [bind, Except.bind]
        rw [hitems]
      rw [hstep]
      exact hm
    · intro v
      rw [hcount v, lookupCount_foldl_bumpCount]
      simp only [List.map_cons, List.sum_cons]
      omega

/-- Claim C3 (amended): for every list of catalog entries whose
category/tag fields iterate to value lists, the aggregated count of a value
equals the total number of raw occurrences of that value across all
entries — an entry listing the same value twice contributes 2 to that
value's count, not 1. -/
theorem aggregation_counts_occurrences (ts : List PyVal)
    (lsCat lsTag : List (List PyVal))
    (hcat : extractLists "categories" ts = .ok lsCat)
    (htag : extractLists "tags" ts = .ok lsTag) :
    (∃ m, aggregate_categories ts = .ok m ∧
      ∀ v, lookupCount m v = (lsCat.map (occurrences · v)).sum) ∧
    (∃ m, aggregate_tags ts = .ok m ∧
      ∀ v, lookupCount m v = (lsTag.map (occurrences · v)).sum) := by
  constructor
  · obtain ⟨m, hm, hc⟩ := aggregate_foldlM_counts "categories" ts [] lsCat hcat
    exact ⟨m, hm, fun v => by simpa [lookupCount] using hc v⟩
  · obtain ⟨m, hm, hc⟩ := aggregate_foldlM_counts "tags" ts [] lsTag htag
    exact ⟨m, hm, fun v => by simpa [lookupCount] using hc v⟩

/-- The duplicated-category entry list used to separate occurrence counting
from per-entry counting. -/
def tsDupCategory : List PyVal :=
  [PyVal.dict [("categories", .list [.str "A", .str "A"])],
   PyVal.dict [("categories", .list [.str "A"]), ("tags", .list [.str "A"])]]

/-- Counterexample to C3 as stated: two entries listing "A" (one of them
twice) give "A" an aggregated category count of 3, while the number of
entries listing "A" at least once is 2. -/
theorem aggregation_counts_per_occurrence :
    aggregate_categories tsDupCategory
      = .ok [(.str "A", 3)] ∧
    specEntriesListing [[.str "A", .str "A"], [.str "A"]] (.str "A") = 2 ∧
    (3 : Int) ≠ (2 : Int) := by
  refine ⟨by rfl, by rfl, by decide⟩

/-- Witness for C3 at the concrete entries `tsDupCategory` (whose tags
field is present on one entry and absent on the other). -/
theorem aggregation_counts_occurrences_witness :
    (∃ m, aggregate_categories tsDupCategory = .ok m ∧
      ∀ v, lookupCount m v
        = ([[PyVal.str "A", PyVal.str "A"], [PyVal.str "A"]].map
            (occurrences · v)).sum) ∧
    (∃ m, aggregate_tags tsDupCategory = .ok m ∧
      ∀ v, lookupCount m v
        = ([([] : List PyVal), [PyVal.str "A"]].map (occurrences · v)).sum) :=
  aggregation_counts_occurrences tsDupCategory
    [[.str "A", .str "A"], [.str "A"]] [[], [.str "A"]] (by rfl) (by rfl)

/-- The summary predicate `t.get("capabilities", {}).get(key, False)`:
missing capability maps degrade to an empty dictionary, missing flags to
`False`, and the result is read for truthiness. -/
def capabilityFlag (t : PyVal) (key : String) : Except String Bool := do
  let caps ← t.getD "capabilities" (.dict [])
  let v ← caps.getD key (.bool false)
  .ok v.truthy

/-- `sum(1 for t in catalog_data if t.get("capabilities", {}).get(key, False))`. -/
def countWithCapability (catalog_data : List PyVal) (key : String) :
    Except String Int :=
  catalog_data.foldlM
    (fun n t => do
      let b ← capabilityFlag t key
      .ok (n + if b then 1 else 0))
    0

/-- The aggregation dictionary rendered at the JSON level of the report
(string keys). -/
def countsToDict (m : List (PyVal × Int)) : PyVal :=
  .dict (m.map (fun kv => (pyStr kv.1, PyVal.int kv.2)))

/-- `AEPCatalogBridge.generate_catalog_report`, up to the report value it
serializes (`now` is the `datetime.now().isoformat()` stamp): version tag,
timestamp, entry count, the full entry list, the summary block with its
three capability counters, and the category/tag breakdowns. -/
def generate_catalog_report (now : String) (catalog_data : List PyVal) :
    Except String PyVal := do
  let wtr ← countWithCapability catalog_data "text_replacement"
  let wir ← countWithCapability catalog_data "image_replacement"
  let mt ← countWithCapability catalog_data "modular"
  let cats ← aggregate_categories catalog_data
  let tags ← aggregate_tags catalog_data
  .ok (PyVal.dict
    [ ("catalog_version", .str "2.0"),
      ("generated_at", .str now),
      ("total_templates", .int catalog_data.length),
      ("parser", .str "Go-Python Bridge"),
      ("templates", .list catalog_data),
      ("summary", .dict
        [ ("total_templates", .int catalog_data.length),
          ("with_text_replacement", .int wtr),
          ("with_image_replacement", .int wir),
          ("modular_templates", .int mt) ]),
      ("categories", countsToDict cats),
      ("tags", countsToDict tags) ])

/-- Stated from the spec sentence under examination (claims C5): whether an
entry exhibits a capability, as a total Boolean (failures cannot occur for
dictionary-shaped entries). -/
def capabilityFlagB (t : PyVal) (key : String) : Bool :=
  match capabilityFlag t key with
  | .ok b => b
  | .error _ => false

/-- Stated from the spec sentence under examination (claim C5): the number
of entries exhibiting a capability. -/
def specCapCount (catalog_data : List PyVal) (key : String) : Int :=
  ((catalog_data.filter (fun t => capabilityFlagB t key)).length : Int)

theorem except_ok_bind {ε α β : Type} (a : α) (f : α → Except ε β) :
    (Except.ok a >>= f) = f a := rfl

theorem countWithCapability_ok_eq (key : String) (ts : List PyVal) :
    ∀ n0 n : Int,
      ts.foldlM
        (fun n t => do
          let b ← capabilityFlag t key
          .ok (n + if b then 1 else 0))
        n0 = .ok n →
      n = n0 + specCapCount ts key := by
  induction ts with
  | nil =>
    intro n0 n h
    rw [List.foldlM_nil] at h
    have hn : n0 = n := by injection h
    subst hn
    simp [specCapCount]
  | cons t rest ih =>
    intro n0 n h
    rw [List.foldlM_cons] at h
    obtain ⟨n1, h1, h2⟩ := except_bind_ok_inv h
    obtain ⟨b, hb, hpure⟩ := except_bind_ok_inv h1
    have hn1 : n0 + (if b then 1 else 0) = n1 := by injection hpure
    have hrest := ih n1 n h2
    have hspec : specCapCount (t :: rest) key
        = (if b then 1 else 0) + specCapCount rest key := by
      simp only [specCapCount, List.filter_cons, capabilityFlagB, hb]
      by_cases hbv : b = true
      · subst hbv
        simp only [if_true, List.length_cons]
        push_cast
        omega
      · have hbf : b = false := by cases b <;> simp_all
        subst hbf
        simp
    rw [hrest, ← hn1, hspec, add_assoc]

/-- A successful summary counter equals the number of entries exhibiting
that capability. -/
theorem countWithCapability_eq_specCapCount (key : String) (ts : List PyVal)
    (n : Int) (h : countWithCapability ts key = .ok n) :
    n = specCapCount ts key := by
  have := countWithCapability_ok_eq key ts 0 n h
  simpa using this

/-- Claim C5 (amended): the report's summary holds exactly four counters —
the entry count (equal to the length of the stored entry list) and the
entry counts for the three capabilities text_replacement, image_replacement
and modular; the other four capability keys have no counter in the
summary. -/
theorem report_summary_counts (now : String) (ts : List PyVal) (r : PyVal)
    (h : generate_catalog_report now ts = .ok r) :
    r.getItem "summary" = .ok (.dict
      [ ("total_templates", .int ts.length),
        ("with_text_replacement", .int (specCapCount ts "text_replacement")),
        ("with_image_replacement", .int (specCapCount ts "image_replacement")),
        ("modular_templates", .int (specCapCount ts "modular")) ]) ∧
    r.getItem "templates" = .ok (.list ts) ∧
    r.getItem "total_templates" = .ok (.int ts.length) := by
  unfold generate_catalog_report at h
  obtain ⟨wtr, h1, h⟩ := except_bind_ok_inv h
  obtain ⟨wir, h2, h⟩ := except_bind_ok_inv h
  obtain ⟨mt, h3, h⟩ := except_bind_ok_inv h
  obtain ⟨cats, h4, h⟩ := except_bind_ok_inv h
  obtain ⟨tags, h5, h⟩ := except_bind_ok_inv h
  injection h with h
  subst h
  rw [countWithCapability_eq_specCapCount "text_replacement" ts wtr h1,
      countWithCapability_eq_specCapCount "image_replacement" ts wir h2,
      countWithCapability_eq_specCapCount "modular" ts mt h3]
  exact ⟨rfl, rfl, rfl⟩

/-- Three catalog entries: two exhibit color_control, the third exhibits
nothing. -/
def tsColorControl : List PyVal :=
  [ .dict [("capabilities", .dict [("color_control", .bool true)])],
    .dict [("capabilities", .dict [("color_control", .bool true)])],
    .dict [] ]

/-- The report generated from `tsColorControl`. -/
def reportColor : PyVal :=
  ((generate_catalog_report "2024-01-15T12:00:00" tsColorControl).toOption).getD
    (.dict [])

/-- Witness for C5 at the concrete entries `tsColorControl`. -/
theorem report_summary_counts_witness :
    reportColor.getItem "summary" = .ok (.dict
      [ ("total_templates", .int tsColorControl.length),
        ("with_text_replacement", .int (specCapCount tsColorControl "text_replacement")),
        ("with_image_replacement", .int (specCapCount tsColorControl "image_replacement")),
        ("modular_templates", .int (specCapCount tsColorControl "modular")) ]) ∧
    reportColor.getItem "templates" = .ok (.list tsColorControl) ∧
    reportColor.getItem "total_templates" = .ok (.int tsColorControl.length) :=
  report_summary_counts "2024-01-15T12:00:00" tsColorControl reportColor (by rfl)

/-- Counterexample to C5 as stated: two of the three entries exhibit
color_control, but no counter in the generated summary carries that count —
every summary value differs from 2. -/
theorem report_summary_lacks_color_control_count :
    specCapCount tsColorControl "color_control" = 2 ∧
    (∃ s, reportColor.getItem "summary" = .ok (.dict s) ∧
      ∀ kv ∈ s, kv.2 ≠ PyVal.int 2) := by
  refine ⟨by rfl, ⟨_, by rfl, by decide⟩⟩
